import Mathlib

/-!
Verification of the bybit_bot_v0 watchlist / turbo engine against its
natural-language specification.

Each Python function relevant to the claims is shallowly embedded as an
executable Lean definition.  Time instants and monetary quantities are
modelled as exact rationals (the Python code works with floats; all the
properties checked here are formula-level, not rounding-level).  Fallible
code paths are modelled with `Option`.
-/

namespace BybitBot

/-! ## Time-to-funding arithmetic (`watchlist_filters.py`)

`calculate_funding_time_remaining` and `calculate_funding_minutes_remaining`
both normalize the stored next-funding instant to UTC seconds, compute
`delta = funding_dt - now`, and, while `delta <= 0`, add 8 hours (28800 s).
The `while` loop is embedded with explicit fuel; `fundingFuel` supplies
enough iterations for the loop to exit, which is proved in
`fundingFuel_sufficient`. -/

/-- One 8-hour funding interval, in seconds. -/
def fundingIntervalSeconds : ℚ := 28800

/-- The body of the advance loop of
`WatchlistFilters.calculate_funding_time_remaining` /
`calculate_funding_minutes_remaining`: while `delta <= 0`, add 8 hours. -/
def advanceFundingDelta : ℕ → ℚ → ℚ
  | 0, delta => delta
  | fuel + 1, delta =>
      if delta ≤ 0 then advanceFundingDelta fuel (delta + fundingIntervalSeconds) else delta

/-- Enough loop iterations for `advanceFundingDelta` to reach a positive
remainder: one more than the number of whole 8-hour intervals in `-delta`. -/
def fundingFuel (delta : ℚ) : ℕ :=
  (Int.floor ((-delta) / fundingIntervalSeconds)).toNat + 1

/-- `delta`, advanced by 8-hour increments until strictly positive — the
shared core of the two time-to-funding functions. -/
def calcFundingDeltaSeconds (funding_dt now : ℚ) : ℚ :=
  advanceFundingDelta (fundingFuel (funding_dt - now)) (funding_dt - now)

/-- The accepted representations of a next-funding instant: an epoch-ms
number (`int`/`float`), an all-digits string (also epoch ms), or an ISO-8601
string already denoting an absolute instant in epoch seconds. -/
inductive NextFundingInput : Type
  | msNum (t : ℚ)
  | msDigits (t : ℕ)
  | isoInstant (secs : ℚ)
deriving DecidableEq, Repr

/-- Normalization of an accepted next-funding input to UTC epoch seconds
(`datetime.fromtimestamp(t / 1000)` for the millisecond forms,
`datetime.fromisoformat` for the ISO form). -/
def parseFundingInstant : NextFundingInput → ℚ
  | .msNum t => t / 1000
  | .msDigits t => (t : ℚ) / 1000
  | .isoInstant secs => secs

/-- The `if not next_funding_time` guard: a numeric `0` (or `0.0`) is falsy
and short-circuits to the error value; non-empty strings are truthy. -/
def fundingInputFalsy : NextFundingInput → Bool
  | .msNum t => t = 0
  | .msDigits _ => false
  | .isoInstant _ => false

/-- `WatchlistFilters.calculate_funding_minutes_remaining`: minutes before
the next funding instant, `none` on the falsy guard. -/
def calculate_funding_minutes_remaining (next_funding_time : NextFundingInput)
    (now : ℚ) : Option ℚ :=
  if fundingInputFalsy next_funding_time then none
  else some (calcFundingDeltaSeconds (parseFundingInstant next_funding_time) now / 60)

/-- The formatting tail of `calculate_funding_time_remaining`:
`total_seconds = int(delta)` split into hours / minutes / seconds, with the
empty higher units suppressed. -/
def formatFundingSeconds (total_seconds : ℕ) : String :=
  let hours := total_seconds / 3600
  let minutes := total_seconds % 3600 / 60
  let seconds := total_seconds % 60
  if 0 < hours then
    toString hours ++ "h " ++ toString minutes ++ "m " ++ toString seconds ++ "s"
  else if 0 < minutes then
    toString minutes ++ "m " ++ toString seconds ++ "s"
  else
    toString seconds ++ "s"

/-- `WatchlistFilters.calculate_funding_time_remaining`: the formatted
`"Hh Mm Ss"` remaining-time string, `"-"` on the falsy guard. -/
def calculate_funding_time_remaining (next_funding_time : NextFundingInput)
    (now : ℚ) : String :=
  if fundingInputFalsy next_funding_time then "-"
  else
    formatFundingSeconds
      (Int.toNat
        (Int.floor (calcFundingDeltaSeconds (parseFundingInstant next_funding_time) now)))

theorem advanceFundingDelta_pos_cong (fuel : ℕ) :
    ∀ delta : ℚ, 0 < delta + fundingIntervalSeconds * fuel →
      0 < advanceFundingDelta fuel delta ∧
        ∃ k : ℕ, advanceFundingDelta fuel delta = delta + fundingIntervalSeconds * k := by
  induction fuel with
  | zero =>
      intro delta h
      simp only [advanceFundingDelta]
      constructor
      · simpa using h
      · exact ⟨0, by simp⟩
  | succ n ih =>
      intro delta h
      simp only [advanceFundingDelta]
      by_cases hle : delta ≤ 0
      · simp only [hle, if_true]
        have h' : 0 < (delta + fundingIntervalSeconds) + fundingIntervalSeconds * n := by
          have : (fundingIntervalSeconds : ℚ) * (n + 1 : ℕ)
              = fundingIntervalSeconds + fundingIntervalSeconds * n := by
            push_cast
            ring
          calc (0 : ℚ) < delta + fundingIntervalSeconds * (n + 1 : ℕ) := h
            _ = (delta + fundingIntervalSeconds) + fundingIntervalSeconds * n := by
                rw [this]; ring
        obtain ⟨hpos, k, hk⟩ := ih (delta + fundingIntervalSeconds) h'
        refine ⟨hpos, k + 1, ?_⟩
        rw [hk]
        push_cast
        ring
      · simp only [hle, if_false]
        exact ⟨lt_of_not_le hle, 0, by simp⟩

theorem fundingFuel_sufficient (delta : ℚ) :
    0 < delta + fundingIntervalSeconds * fundingFuel delta := by
  unfold fundingFuel
  set x : ℚ := (-delta) / fundingIntervalSeconds with hx
  have hfloor : ((Int.floor x : ℤ) : ℚ) ≤ ((Int.floor x).toNat : ℚ) := by
    exact_mod_cast Int.cast_le.mpr (Int.self_le_toNat _)
  have hlt : x < ((Int.floor x : ℤ) : ℚ) + 1 := Int.lt_floor_add_one x
  have hfi : (0 : ℚ) < fundingIntervalSeconds := by norm_num [fundingIntervalSeconds]
  have hx_lt : x < ((Int.floor x).toNat : ℚ) + 1 := lt_of_lt_of_le hlt (by linarith)
  have : (-delta) < fundingIntervalSeconds * (((Int.floor x).toNat : ℚ) + 1) := by
    calc (-delta) = x * fundingIntervalSeconds := by
          rw [hx]; field_simp
      _ < (((Int.floor x).toNat : ℚ) + 1) * fundingIntervalSeconds := by
          have hxlt := hx_lt
          nlinarith
      _ = fundingIntervalSeconds * (((Int.floor x).toNat : ℚ) + 1) := by ring
  have hcast : ((((Int.floor x).toNat) + 1 : ℕ) : ℚ) = ((Int.floor x).toNat : ℚ) + 1 := by
    push_cast
    ring
  rw [hcast]
  linarith

/-- C1: for every accepted next-funding instant (epoch-ms number, digit
string, or ISO string) whose denoted instant is not in the future, both
time-to-funding functions report a remaining time `d` that is strictly
positive and congruent to `(t - now)` modulo 8 hours: the minutes variant
returns `d / 60` and the formatted variant renders `int(d)` as
`"Hh Mm Ss"`. -/
theorem funding_time_advance (inp : NextFundingInput) (now : ℚ)
    (hacc : fundingInputFalsy inp = false)
    (hpast : parseFundingInstant inp ≤ now) :
    ∃ d : ℚ, 0 < d ∧
      (∃ k : ℕ, d = (parseFundingInstant inp - now) + fundingIntervalSeconds * k) ∧
      calculate_funding_minutes_remaining inp now = some (d / 60) ∧
      calculate_funding_time_remaining inp now =
        formatFundingSeconds (Int.toNat (Int.floor d)) := by
  have hmain := advanceFundingDelta_pos_cong
    (fundingFuel (parseFundingInstant inp - now)) (parseFundingInstant inp - now)
    (fundingFuel_sufficient _)
  refine ⟨calcFundingDeltaSeconds (parseFundingInstant inp) now, ?_, ?_, ?_, ?_⟩
  · exact hmain.1
  · exact hmain.2
  · simp [calculate_funding_minutes_remaining, hacc]
  · simp [calculate_funding_time_remaining, hacc]

/-- Witness for C1 at the concrete input `t = 1000` ms (epoch second 1) and
`now = 30000` s: the instant is in the past and the advanced remainder is
`27601` s, i.e. `27601/60` minutes, formatted as `"7h 40m 1s"`. -/
theorem funding_time_advance_witness :
    fundingInputFalsy (.msNum 1000) = false ∧
      parseFundingInstant (.msNum 1000) ≤ (30000 : ℚ) ∧
      ∃ d : ℚ, 0 < d ∧
        (∃ k : ℕ, d = (parseFundingInstant (.msNum 1000) - 30000)
            + fundingIntervalSeconds * k) ∧
        calculate_funding_minutes_remaining (.msNum 1000) 30000 = some (d / 60) ∧
        calculate_funding_time_remaining (.msNum 1000) 30000 =
          formatFundingSeconds (Int.toNat (Int.floor d)) :=
  ⟨by decide, by norm_num [parseFundingInstant],
    funding_time_advance (.msNum 1000) 30000 (by decide)
      (by norm_num [parseFundingInstant])⟩

/-! ## Composite score (`scoring.py`)

`ScoringEngine.compute_score` combines funding, volume, spread and
volatility with configured weights.  `math.log` is modelled by an abstract
function `log : ℚ → ℚ`; the only property of it any claim needs is
`log 1 = 0`, which holds exactly for the float `math.log`. -/

/-- `ScoringEngine.compute_score`: weighted composite score with the volume
clamped at `1` before the logarithm. -/
def compute_score (log : ℚ → ℚ)
    (weight_funding weight_volume weight_spread weight_volatility : ℚ)
    (funding volume spread volatility : ℚ) : ℚ :=
  let log_volume := log (max volume 1)
  let funding_component := weight_funding * funding
  let volume_component := weight_volume * log_volume
  let spread_penalty := weight_spread * spread
  let volatility_penalty := weight_volatility * volatility
  funding_component + volume_component - spread_penalty - volatility_penalty

/-- A concrete stand-in for `math.log` used by witnesses: it satisfies
`log 1 = 0` like the real logarithm. -/
def indicatorLog (q : ℚ) : ℚ := if q = 1 then 0 else 1

/-- C3: `compute_score` is exactly
`w_f*f + w_v*log(max(v,1)) - w_s*s - w_vol*sigma`; for `v ≤ 0` the volume
term collapses to `w_v*log 1 = 0`; and the function is deterministic (equal
inputs give equal scores). -/
theorem compute_score_spec (log : ℚ → ℚ)
    (w_f w_v w_s w_vol f v s sigma : ℚ) :
    compute_score log w_f w_v w_s w_vol f v s sigma
        = w_f * f + w_v * log (max v 1) - w_s * s - w_vol * sigma ∧
      (v ≤ 0 → log 1 = 0 →
        compute_score log w_f w_v w_s w_vol f v s sigma
          = w_f * f - w_s * s - w_vol * sigma) ∧
      (∀ f' v' s' sigma', f = f' → v = v' → s = s' → sigma = sigma' →
        compute_score log w_f w_v w_s w_vol f v s sigma
          = compute_score log w_f w_v w_s w_vol f' v' s' sigma') := by
  refine ⟨rfl, ?_, ?_⟩
  · intro hv hlog
    have hmax : max v 1 = 1 := max_eq_right (by linarith)
    simp only [compute_score, hmax, hlog]
    ring
  · intro f' v' s' sigma' hf hv hs hsig
    rw [hf, hv, hs, hsig]

/-- Witness for C3 at concrete weights `(1000, 10, 200, 50)` and inputs
`f = 1/100`, `v = -5` (non-positive volume), `s = 1/1000`,
`sigma = 2/100`. -/
theorem compute_score_spec_witness :
    ((-5 : ℚ) ≤ 0) ∧ indicatorLog 1 = 0 ∧
      compute_score indicatorLog 1000 10 200 50 (1/100) (-5) (1/1000) (2/100)
        = 1000 * (1/100) - 200 * (1/1000) - 50 * (2/100) :=
  ⟨by norm_num, by norm_num [indicatorLog],
    (compute_score_spec indicatorLog 1000 10 200 50 (1/100) (-5) (1/1000) (2/100)).2.1
      (by norm_num) (by norm_num [indicatorLog])⟩

/-! ## Spread computation (`utils.py`, `watchlist_data_fetcher.py`,
`turbo/turbo_manager.py`)

Three code sites compute a spread fraction from best bid / best ask:
`compute_spread_with_mid_price` (used by the merge helper and the unary
REST fallback), the paginated REST fetch loop body in
`WatchlistDataFetcher.fetch_spread_data`, and the per-tick snapshot in
`TurboManager._get_realtime_snapshot`. -/

/-- `utils.compute_spread_with_mid_price`: `(ask - bid) / ((ask + bid) / 2)`
with zero-guards. -/
def compute_spread_with_mid_price (bid ask : ℚ) : ℚ :=
  if bid = 0 ∧ ask = 0 then 0
  else
    let mid := (ask + bid) / 2
    if mid = 0 then 0 else (ask - bid) / mid

/-- The per-ticker body of the paginated loop in
`WatchlistDataFetcher.fetch_spread_data`: both quotes present and positive,
spread `(a - b) / mid` with `mid = (a + b) / 2`. -/
def fetchSpreadPageEntry (bid1 ask1 : Option ℚ) : Option ℚ :=
  match bid1, ask1 with
  | some b, some a =>
      if 0 < b ∧ 0 < a then
        let mid := (a + b) / 2
        if 0 < mid then some ((a - b) / mid) else none
      else none
  | _, _ => none

/-- The spread computation of `TurboManager._get_realtime_snapshot`: both
quotes truthy (non-zero) and positive, spread `(ask - bid) / bid`. -/
def turboSnapshotSpread (bid1 ask1 : Option ℚ) : Option ℚ :=
  match bid1, ask1 with
  | some b, some a =>
      if b ≠ 0 ∧ a ≠ 0 then
        if 0 < b ∧ 0 < a then some ((a - b) / b) else none
      else none
  | _, _ => none

/-- Counterexample to C2 as stated: at `bid = 1`, `ask = 3` the turbo
per-tick snapshot computes `(ask - bid) / bid = 2`, not the claimed
`(ask - bid) / ((ask + bid) / 2) = 1`. -/
theorem turbo_snapshot_spread_counterexample :
    turboSnapshotSpread (some 1) (some 3) = some 2 ∧
      ((3 : ℚ) - 1) / ((3 + 1) / 2) = 1 ∧
      turboSnapshotSpread (some 1) (some 3) ≠
        some (((3 : ℚ) - 1) / ((3 + 1) / 2)) := by
  refine ⟨?_, by norm_num, ?_⟩ <;> norm_num [turboSnapshotSpread]

/-- C2 (amended): for strictly positive bid and ask, the REST spread fetch
and the bid/ask merge helper compute `(ask - bid) / ((ask + bid) / 2)`,
while the turbo per-tick snapshot computes `(ask - bid) / bid`. -/
theorem spread_formulas (bid ask : ℚ) (hb : 0 < bid) (ha : 0 < ask) :
    compute_spread_with_mid_price bid ask = (ask - bid) / ((ask + bid) / 2) ∧
      fetchSpreadPageEntry (some bid) (some ask)
        = some ((ask - bid) / ((ask + bid) / 2)) ∧
      turboSnapshotSpread (some bid) (some ask) = some ((ask - bid) / bid) := by
  have hmid : (0 : ℚ) < (ask + bid) / 2 := by positivity
  refine ⟨?_, ?_, ?_⟩
  · simp only [compute_spread_with_mid_price]
    rw [if_neg (by rintro ⟨h1, h2⟩; exact absurd h1 (ne_of_gt hb)),
      if_neg (ne_of_gt hmid)]
  · simp only [fetchSpreadPageEntry]
    rw [if_pos ⟨hb, ha⟩, if_pos hmid]
  · simp only [turboSnapshotSpread]
    rw [if_pos ⟨ne_of_gt hb, ne_of_gt ha⟩, if_pos ⟨hb, ha⟩]

/-- Witness for C2 (amended) at `bid = 2`, `ask = 4`: mid-price spread
`2 / 3`, turbo spread `1`. -/
theorem spread_formulas_witness :
    (0 : ℚ) < 2 ∧ (0 : ℚ) < 4 ∧
      compute_spread_with_mid_price 2 4 = ((4 : ℚ) - 2) / ((4 + 2) / 2) ∧
      fetchSpreadPageEntry (some 2) (some 4)
        = some (((4 : ℚ) - 2) / ((4 + 2) / 2)) ∧
      turboSnapshotSpread (some 2) (some 4) = some (((4 : ℚ) - 2) / 2) :=
  ⟨by norm_num, by norm_num, spread_formulas 2 4 (by norm_num) (by norm_num)⟩

/-! ## Real-time ticker merge (`bot.py`)

`_update_realtime_data_from_ticker` builds a seven-field diff from the
incoming ticker and merges it into the stored per-symbol state, writing a
field only when the incoming value is non-null — but only if at least one
of the five "important" fields is present; otherwise the whole update is
dropped.  Field values are kept abstract (`α`). -/

/-- Per-symbol real-time state (`realtime_data[symbol]`). -/
structure InstantTicker (α : Type) where
  funding_rate : Option α := none
  volume24h : Option α := none
  bid1_price : Option α := none
  ask1_price : Option α := none
  next_funding_time : Option α := none
  mark_price : Option α := none
  last_price : Option α := none
  timestamp : Option ℚ := none
deriving DecidableEq, Repr

/-- The `incoming` diff built from a WebSocket ticker payload. -/
structure TickerUpdate (α : Type) where
  funding_rate : Option α := none
  volume24h : Option α := none
  bid1_price : Option α := none
  ask1_price : Option α := none
  next_funding_time : Option α := none
  mark_price : Option α := none
  last_price : Option α := none
deriving DecidableEq, Repr

/-- `if v is not None: merged[k] = v` — latest non-null wins per field. -/
def mergeField {α : Type} (cur inc : Option α) : Option α :=
  match inc with
  | some v => some v
  | none => cur

/-- The `any(incoming[key] is not None for key in important_keys)` gate. -/
def importantFieldPresent {α : Type} (u : TickerUpdate α) : Bool :=
  u.funding_rate.isSome || u.volume24h.isSome || u.bid1_price.isSome ||
    u.ask1_price.isSome || u.next_funding_time.isSome

/-- `_update_realtime_data_from_ticker` restricted to one symbol's state:
merge field-wise when the gate passes, drop the update otherwise. -/
def update_realtime_data_from_ticker {α : Type} (cur : InstantTicker α)
    (u : TickerUpdate α) (now_ts : ℚ) : InstantTicker α :=
  if importantFieldPresent u then
    { funding_rate := mergeField cur.funding_rate u.funding_rate
      volume24h := mergeField cur.volume24h u.volume24h
      bid1_price := mergeField cur.bid1_price u.bid1_price
      ask1_price := mergeField cur.ask1_price u.ask1_price
      next_funding_time := mergeField cur.next_funding_time u.next_funding_time
      mark_price := mergeField cur.mark_price u.mark_price
      last_price := mergeField cur.last_price u.last_price
      timestamp := some now_ts }
  else cur

theorem mergeField_eq_ite {α : Type} (cur inc : Option α) :
    mergeField cur inc = if inc.isSome then inc else cur := by
  cases inc <;> simp [mergeField]

/-- Counterexample to C5 as stated: starting from a state that knows
`mark_price = "1.0"`, an update carrying only the non-null field
`mark_price = "2.0"` (all five important fields null) is dropped entirely,
so the previously known value survives although the update's value was
non-null. -/
theorem ticker_merge_counterexample :
    (update_realtime_data_from_ticker
        (update_realtime_data_from_ticker ({} : InstantTicker String)
          { funding_rate := some "0.0001", mark_price := some "1.0" } 1)
        { mark_price := some "2.0" } 2).mark_price = some "1.0" ∧
      ({ mark_price := some "2.0" } : TickerUpdate String).mark_price
          = some "2.0" ∧
      (some "1.0" : Option String) ≠ some "2.0" :=
  ⟨rfl, rfl, by decide⟩

/-- C5 (amended): when the incoming update carries at least one non-null
field among funding rate, volume, bid, ask and next-funding-time, every
field of the merged state is the update's value when non-null and the
previous value otherwise; an update with all five of those fields null is
ignored entirely (previous state unchanged, even when mark/last price are
non-null). -/
theorem ticker_merge_null_preserving {α : Type} (cur : InstantTicker α)
    (u : TickerUpdate α) (now_ts : ℚ) :
    (importantFieldPresent u = true →
      (update_realtime_data_from_ticker cur u now_ts).funding_rate
          = (if u.funding_rate.isSome then u.funding_rate else cur.funding_rate) ∧
        (update_realtime_data_from_ticker cur u now_ts).volume24h
          = (if u.volume24h.isSome then u.volume24h else cur.volume24h) ∧
        (update_realtime_data_from_ticker cur u now_ts).bid1_price
          = (if u.bid1_price.isSome then u.bid1_price else cur.bid1_price) ∧
        (update_realtime_data_from_ticker cur u now_ts).ask1_price
          = (if u.ask1_price.isSome then u.ask1_price else cur.ask1_price) ∧
        (update_realtime_data_from_ticker cur u now_ts).next_funding_time
          = (if u.next_funding_time.isSome then u.next_funding_time
             else cur.next_funding_time) ∧
        (update_realtime_data_from_ticker cur u now_ts).mark_price
          = (if u.mark_price.isSome then u.mark_price else cur.mark_price) ∧
        (update_realtime_data_from_ticker cur u now_ts).last_price
          = (if u.last_price.isSome then u.last_price else cur.last_price)) ∧
      (importantFieldPresent u = false →
        update_realtime_data_from_ticker cur u now_ts = cur) := by
  constructor
  · intro hgate
    simp [update_realtime_data_from_ticker, hgate, mergeField_eq_ite]
  · intro hgate
    simp [update_realtime_data_from_ticker, hgate]

/-- Witness for C5 (amended) at a concrete state and update: the non-null
`funding_rate` overwrites, the null `volume24h` preserves. -/
theorem ticker_merge_null_preserving_witness :
    importantFieldPresent
        ({ funding_rate := some "0.0002" } : TickerUpdate String) = true ∧
      (update_realtime_data_from_ticker
          ({ funding_rate := some "0.0001", volume24h := some "5" } :
            InstantTicker String)
          { funding_rate := some "0.0002" } 3).funding_rate
        = (if (some "0.0002" : Option String).isSome then some "0.0002"
           else some "0.0001") :=
  ⟨by decide,
    ((ticker_merge_null_preserving
        ({ funding_rate := some "0.0001", volume24h := some "5" } :
          InstantTicker String)
        { funding_rate := some "0.0002" } 3).1 (by decide)).1⟩

/-! ## Streaming subscription frames (`ws_manager.py`, `ws_public.py`)

`PublicWSClient._on_open` subscribes `publicTrade.S`, `orderbook.1.S` and
`tickers.S` for every symbol of its category;
`WebSocketManager.subscribe_turbo_symbol` sends an incremental subscribe
frame for one symbol — with `instrument_info.S` in place of
`tickers.S`. -/

/-- A streaming subscribe frame: `{"op": ..., "args": [...]}`. -/
structure WsFrame where
  op : String
  args : List String
deriving DecidableEq, Repr

/-- The `turbo_topics` list of `WebSocketManager.subscribe_turbo_symbol`. -/
def turbo_topics (symbol : String) : List String :=
  ["instrument_info." ++ symbol, "publicTrade." ++ symbol,
    "orderbook.1." ++ symbol]

/-- The `subscribe_message` built by
`WebSocketManager.subscribe_turbo_symbol`. -/
def subscribe_turbo_frame (symbol : String) : WsFrame :=
  { op := "subscribe", args := turbo_topics symbol }

/-- `WebSocketManager.subscribe_turbo_symbol`'s sending decision: fail fast
without a running manager or an available connection, otherwise send the
turbo subscribe frame. -/
def subscribe_turbo_symbol (running conn_available : Bool)
    (symbol : String) : Option WsFrame :=
  if running = false then none
  else if conn_available = false then none
  else some (subscribe_turbo_frame symbol)

/-- The per-symbol topics of the bulk subscription sent by
`PublicWSClient._on_open`. -/
def public_ws_on_open_topics (symbols : List String) : List String :=
  symbols.flatMap (fun s =>
    ["publicTrade." ++ s, "orderbook.1." ++ s, "tickers." ++ s])

/-- The arg list C10 claims for the dynamic turbo subscription, written
from the spec's words (`tickers.S`, `publicTrade.S`, `orderbook.1.S`). -/
def specClaimedTurboTopics (symbol : String) : List String :=
  ["tickers." ++ symbol, "publicTrade." ++ symbol, "orderbook.1." ++ symbol]

/-- Counterexample to C10 as stated: for `BTCUSDT` the dynamic turbo
subscribe frame's arg list is not the spec's three topics — its first topic
is `instrument_info.BTCUSDT`, not `tickers.BTCUSDT`. -/
theorem subscribe_turbo_frame_counterexample :
    (subscribe_turbo_frame "BTCUSDT").args ≠ specClaimedTurboTopics "BTCUSDT" ∧
      (subscribe_turbo_frame "BTCUSDT").args
        = ["instrument_info.BTCUSDT", "publicTrade.BTCUSDT",
            "orderbook.1.BTCUSDT"] := by
  constructor
  · decide
  · rfl

/-- C10 (amended): every dynamic turbo subscription frame actually sent has
op `subscribe` and exactly the three topics `instrument_info.S`,
`publicTrade.S`, `orderbook.1.S`; the `tickers.S` topic appears only in the
bulk subscription sent on connection open. -/
theorem subscribe_turbo_frame_spec (running conn_available : Bool)
    (symbol : String) (frame : WsFrame)
    (hsent : subscribe_turbo_symbol running conn_available symbol = some frame) :
    frame.op = "subscribe" ∧
      frame.args = ["instrument_info." ++ symbol, "publicTrade." ++ symbol,
        "orderbook.1." ++ symbol] ∧
      public_ws_on_open_topics [symbol]
        = ["publicTrade." ++ symbol, "orderbook.1." ++ symbol,
            "tickers." ++ symbol] := by
  cases running with
  | false => simp [subscribe_turbo_symbol] at hsent
  | true =>
    cases conn_available with
    | false => simp [subscribe_turbo_symbol] at hsent
    | true =>
      simp only [subscribe_turbo_symbol, Option.some.injEq, if_neg,
        Bool.true_eq_false, not_false_eq_true, if_false] at hsent
      rw [← hsent]
      exact ⟨rfl, rfl, by simp [public_ws_on_open_topics]⟩

/-- Witness for C10 (amended) at `symbol = BTCUSDT` on a live connection. -/
theorem subscribe_turbo_frame_spec_witness :
    subscribe_turbo_symbol true true "BTCUSDT"
        = some (subscribe_turbo_frame "BTCUSDT") ∧
      (subscribe_turbo_frame "BTCUSDT").op = "subscribe" ∧
      (subscribe_turbo_frame "BTCUSDT").args
        = ["instrument_info.BTCUSDT", "publicTrade.BTCUSDT",
            "orderbook.1.BTCUSDT"] ∧
      public_ws_on_open_topics ["BTCUSDT"]
        = ["publicTrade.BTCUSDT", "orderbook.1.BTCUSDT", "tickers.BTCUSDT"] :=
  ⟨rfl, subscribe_turbo_frame_spec true true "BTCUSDT"
    (subscribe_turbo_frame "BTCUSDT") rfl⟩

/-! ## Spread filter stage (`watchlist_filters.py`)

`WatchlistFilters.filter_by_spread` keeps a symbol only when its spread is
present in `spread_data` and `≤ spread_max`; with no `spread_max` it passes
everything through with a default spread of `0.0`. -/

/-- A `(symbol, funding, volume, funding_time_remaining)` tuple as produced
by `filter_by_funding`. -/
structure FundingCandidate where
  symbol : String
  funding : ℚ
  volume : ℚ
  funding_time_remaining : String
deriving DecidableEq, Repr

/-- A `(symbol, funding, volume, funding_time_remaining, spread_pct)` tuple
as produced by `filter_by_spread`. -/
structure SpreadCandidate where
  symbol : String
  funding : ℚ
  volume : ℚ
  funding_time_remaining : String
  spread_pct : ℚ
deriving DecidableEq, Repr

/-- `symbol in spread_data and spread_data[symbol]` on the spread dict,
modelled as an association list. -/
def spreadLookup (spread_data : List (String × ℚ)) (symbol : String) :
    Option ℚ :=
  (spread_data.find? (fun p => p.1 == symbol)).map (fun p => p.2)

/-- `WatchlistFilters.filter_by_spread`. -/
def filter_by_spread (symbols_data : List FundingCandidate)
    (spread_data : List (String × ℚ)) (spread_max : Option ℚ) :
    List SpreadCandidate :=
  match spread_max with
  | none =>
      symbols_data.map (fun c =>
        ⟨c.symbol, c.funding, c.volume, c.funding_time_remaining, 0⟩)
  | some m =>
      symbols_data.filterMap (fun c =>
        match spreadLookup spread_data c.symbol with
        | some sp =>
            if sp ≤ m then
              some ⟨c.symbol, c.funding, c.volume, c.funding_time_remaining, sp⟩
            else none
        | none => none)

/-- Counterexample to C9 as stated: a symbol absent from the spread map is
excluded by the spread stage (the output is empty), although the claim says
a missing input leaves the symbol eligible. -/
theorem spread_filter_counterexample :
    filter_by_spread [⟨"AAAUSDT", 1/100, 10000000, "-"⟩] [] (some (1/100))
        = [] ∧
      spreadLookup [] "AAAUSDT" = none :=
  ⟨rfl, rfl⟩

/-- C9 (amended): with `spread_max` set, a symbol is kept by the spread
stage iff its spread is present in the spread map and `≤ spread_max` — so a
symbol whose spread is missing is dropped; with `spread_max` unset, every
symbol passes with default spread `0.0`. -/
theorem spread_filter_spec :
    (∀ (l : List FundingCandidate) (sd : List (String × ℚ)) (m : ℚ)
        (x : SpreadCandidate),
      x ∈ filter_by_spread l sd (some m) ↔
        (⟨x.symbol, x.funding, x.volume, x.funding_time_remaining⟩ :
            FundingCandidate) ∈ l ∧
          spreadLookup sd x.symbol = some x.spread_pct ∧ x.spread_pct ≤ m) ∧
      (∀ (l : List FundingCandidate) (sd : List (String × ℚ)),
        filter_by_spread l sd none
          = l.map (fun c =>
              ⟨c.symbol, c.funding, c.volume, c.funding_time_remaining, 0⟩)) := by
  constructor
  · intro l sd m x
    simp only [filter_by_spread, List.mem_filterMap]
    constructor
    · rintro ⟨a, ha, hfa⟩
      cases hl : spreadLookup sd a.symbol with
      | none => simp [hl] at hfa
      | some sp =>
          simp only [hl] at hfa
          by_cases hle : sp ≤ m
          · rw [if_pos hle] at hfa
            obtain rfl := (Option.some.injEq _ _).mp hfa
            exact ⟨ha, hl, hle⟩
          · rw [if_neg hle] at hfa
            exact absurd hfa (by simp)
    · rintro ⟨hmem, hlook, hle⟩
      refine ⟨⟨x.symbol, x.funding, x.volume, x.funding_time_remaining⟩,
        hmem, ?_⟩
      simp only [hlook, if_pos hle]
  · intro l sd
    rfl

/-- Witness for C9 (amended): a symbol with a present spread `1/200 ≤ 1/100`
is kept by the stage. -/
theorem spread_filter_spec_witness :
    (⟨"AAAUSDT", 1/100, 10000000, "-", 1/200⟩ : SpreadCandidate) ∈
      filter_by_spread [⟨"AAAUSDT", 1/100, 10000000, "-"⟩]
        [("AAAUSDT", 1/200)] (some (1/100)) :=
  (spread_filter_spec.1 [⟨"AAAUSDT", 1/100, 10000000, "-"⟩]
      [("AAAUSDT", 1/200)] (1/100)
      ⟨"AAAUSDT", 1/100, 10000000, "-", 1/200⟩).mpr
    ⟨by simp, rfl, by norm_num⟩

/-! ## Funding-time string parsing (`turbo/turbo_manager.py`)

`TurboManager._parse_funding_time_to_seconds` tries five anchored regex
prefixes in order — `(\d+)h\s*(\d+)m\s*(\d+)s` on the stripped string, then
`(\d+)h(\d+)m`, `(\d+)h`, `(\d+)m(\d+)s`, `(\d+)s` — and finally a manual
fallback that replaces `h`/`m` by spaces, removes `s`, splits on
whitespace, and requires at least three parts.  Each regex is embedded as
a prefix matcher over the character list. -/

/-- `\d+` as a prefix: the leading digit run and the rest. -/
def takeDigits : List Char → List Char × List Char
  | [] => ([], [])
  | c :: cs =>
      if c.isDigit then
        let r := takeDigits cs
        (c :: r.1, r.2)
      else ([], c :: cs)

/-- Decimal value of a digit run. -/
def digitsToNat (ds : List Char) : ℕ :=
  ds.foldl (fun n c => n * 10 + (c.toNat - '0'.toNat)) 0

/-- `(\d+)X` as a prefix for a literal `X`: at least one digit, then the
literal, returning the number and the remaining characters. -/
def matchNumThen (lit : Char) (cs : List Char) : Option (ℕ × List Char) :=
  match takeDigits cs with
  | ([], _) => none
  | (ds, c :: rest) => if c = lit then some (digitsToNat ds, rest) else none
  | (_, []) => none

/-- `\s*` as a prefix. -/
def skipSpaces (cs : List Char) : List Char :=
  cs.dropWhile Char.isWhitespace

/-- Python `str.strip()`. -/
def trimChars (cs : List Char) : List Char :=
  ((cs.dropWhile Char.isWhitespace).reverse.dropWhile Char.isWhitespace).reverse

/-- `re.match(r'(\d+)h\s*(\d+)m\s*(\d+)s', ...)` → `h*3600 + m*60 + s`. -/
def matchFullHMS (cs : List Char) : Option ℕ := do
  let (h, r1) ← matchNumThen 'h' cs
  let (m, r2) ← matchNumThen 'm' (skipSpaces r1)
  let (s, _) ← matchNumThen 's' (skipSpaces r2)
  pure (h * 3600 + m * 60 + s)

/-- `re.match(r'(\d+)h(\d+)m', ...)` → `h*3600 + m*60`. -/
def matchHM (cs : List Char) : Option ℕ := do
  let (h, r1) ← matchNumThen 'h' cs
  let (m, _) ← matchNumThen 'm' r1
  pure (h * 3600 + m * 60)

/-- `re.match(r'(\d+)h', ...)` → `h*3600`. -/
def matchHOnly (cs : List Char) : Option ℕ := do
  let (h, _) ← matchNumThen 'h' cs
  pure (h * 3600)

/-- `re.match(r'(\d+)m(\d+)s', ...)` → `m*60 + s` — note: no `\s*` between
the minute and second groups. -/
def matchMS (cs : List Char) : Option ℕ := do
  let (m, r1) ← matchNumThen 'm' cs
  let (s, _) ← matchNumThen 's' r1
  pure (m * 60 + s)

/-- `re.match(r'(\d+)s', ...)` → `s`. -/
def matchSOnly (cs : List Char) : Option ℕ := do
  let (s, _) ← matchNumThen 's' cs
  pure s

/-- Python `str.split()` (split on whitespace runs, no empty chunks). -/
def wsSplitAux : List Char → List Char → List (List Char)
  | [], acc => if acc.isEmpty then [] else [acc.reverse]
  | c :: cs, acc =>
      if c.isWhitespace then
        if acc.isEmpty then wsSplitAux cs []
        else acc.reverse :: wsSplitAux cs []
      else wsSplitAux cs (c :: acc)

/-- Python `str.split()` on a character list. -/
def wsSplit (cs : List Char) : List (List Char) :=
  wsSplitAux cs []

/-- `funding_time_str.replace('h',' ').replace('m',' ').replace('s','').split()`. -/
def fallbackParts (cs : List Char) : List (List Char) :=
  wsSplit ((cs.map (fun c => if c = 'h' ∨ c = 'm' then ' ' else c)).filter
    (fun c => c ≠ 's'))

/-- Python `int(part)` on a split chunk: the chunks fed to it carry no sign
or whitespace, so it succeeds exactly on non-empty digit runs. -/
def parseIntChars (cs : List Char) : Option ℕ :=
  if cs ≠ [] ∧ cs.all Char.isDigit then some (digitsToNat cs) else none

/-- The manual fallback of `_parse_funding_time_to_seconds`: needs at least
three parts, all numeric. -/
def fallbackParse (cs : List Char) : Option ℕ :=
  match fallbackParts cs with
  | p1 :: p2 :: p3 :: _ =>
      match parseIntChars p1, parseIntChars p2, parseIntChars p3 with
      | some h, some m, some s => some (h * 3600 + m * 60 + s)
      | _, _, _ => none
  | _ => none

/-- `TurboManager._parse_funding_time_to_seconds`. -/
def parse_funding_time_to_seconds (s : String) : Option ℕ :=
  if s = "" then none
  else
    let cs := s.data
    match matchFullHMS (trimChars cs) with
    | some t => some t
    | none =>
        match matchHM cs with
        | some t => some t
        | none =>
            match matchHOnly cs with
            | some t => some t
            | none =>
                match matchMS cs with
                | some t => some t
                | none =>
                    match matchSOnly cs with
                    | some t => some t
                    | none => fallbackParse cs

/-- C4: the round-trip `parse(format x) = x` fails on the code.  For
`x = 123` s the formatter emits `"2m 3s"`, which none of the parser's
regexes accept (the minute/second regex has no `\s*`) and whose fallback
yields only two parts — the parser returns `None`.  The round-trip does
hold for the second-only and hour shapes (`x = 45`, `x = 7384`). -/
theorem parse_format_roundtrip_fails :
    formatFundingSeconds 123 = "2m 3s" ∧
      parse_funding_time_to_seconds (formatFundingSeconds 123) = none ∧
      parse_funding_time_to_seconds (formatFundingSeconds 45) = some 45 ∧
      parse_funding_time_to_seconds (formatFundingSeconds 7384) = some 7384 := by
  refine ⟨?_, ?_, ?_, ?_⟩ <;> decide

/-! ## Turbo controller state (`turbo/turbo_manager.py`)

`TurboManager.start_for_symbol` / `stop_for_symbol` / `is_eligible` manage
the `active` registry, the `cooldown_until` map and the metrics counters.
`active` is modelled by its key list, `cooldown_until` by an association
list with unique keys (a dict assignment is modelled as erase-then-cons).
The wait for first WebSocket data inside `start_for_symbol` is modelled by
its outcome `ws_data_ready`: whether data was already present or arrived
before `ws_timeout_seconds`. -/

/-- The turbo configuration fields these operations read. -/
structure TurboConfig where
  enabled : Bool
  max_parallel_pairs : ℕ
  cooldown_s : ℚ
deriving DecidableEq, Repr

/-- The mutable `TurboManager` state these operations touch. -/
structure TurboMgrState where
  active : List String
  cooldown_until : List (String × ℚ)
  turbo_skips : ℕ
  turbo_exits : ℕ
  turbo_filter_break : ℕ
deriving DecidableEq, Repr

/-- `self.cooldown_until.get(symbol)`. -/
def cooldownLookup (cd : List (String × ℚ)) (symbol : String) : Option ℚ :=
  (cd.find? (fun p => p.1 == symbol)).map (fun p => p.2)

/-- `del self.cooldown_until[symbol]`. -/
def eraseCooldown (cd : List (String × ℚ)) (symbol : String) :
    List (String × ℚ) :=
  cd.filter (fun p => p.1 ≠ symbol)

/-- `TurboManager.is_eligible`: not eligible while a cooldown deadline lies
in the future; an expired entry is cleaned up on the way. -/
def is_eligible (st : TurboMgrState) (symbol : String) (now : ℚ) :
    Bool × TurboMgrState :=
  match cooldownLookup st.cooldown_until symbol with
  | none => (true, st)
  | some deadline =>
      if now < deadline then (false, st)
      else
        (true,
          { st with cooldown_until := eraseCooldown st.cooldown_until symbol })

/-- `TurboManager.start_for_symbol`: refuse when disabled, already active,
in cooldown, at the parallel-pair cap, or without WebSocket data (the last
two count a `turbo_skips`); otherwise launch the loop and register the
symbol as active. -/
def start_for_symbol (cfg : TurboConfig) (st : TurboMgrState)
    (symbol : String) (now : ℚ) (ws_data_ready : Bool) :
    Bool × TurboMgrState :=
  if cfg.enabled = false then (false, st)
  else if symbol ∈ st.active then (false, st)
  else if (is_eligible st symbol now).1 = false then
    (false, (is_eligible st symbol now).2)
  else if cfg.max_parallel_pairs ≤ (is_eligible st symbol now).2.active.length then
    (false, { (is_eligible st symbol now).2 with
        turbo_skips := (is_eligible st symbol now).2.turbo_skips + 1 })
  else if ws_data_ready = false then
    (false, { (is_eligible st symbol now).2 with
        turbo_skips := (is_eligible st symbol now).2.turbo_skips + 1 })
  else
    (true, { (is_eligible st symbol now).2 with
        active := symbol :: (is_eligible st symbol now).2.active })

/-- The `self.cooldown_until[symbol] = time.time() + self.cooldown_s` block
of `stop_for_symbol`, guarded by `cooldown_s > 0`. -/
def applyCooldown (cfg : TurboConfig) (symbol : String) (now : ℚ)
    (st : TurboMgrState) : TurboMgrState :=
  if 0 < cfg.cooldown_s then
    { st with cooldown_until :=
        (symbol, now + cfg.cooldown_s) :: eraseCooldown st.cooldown_until symbol }
  else st

/-- The per-reason metrics block of `stop_for_symbol`. -/
def applyStopMetrics (reason : String) (st : TurboMgrState) : TurboMgrState :=
  if reason = "filter_break" then
    { st with turbo_filter_break := st.turbo_filter_break + 1 }
  else if reason = "funding_done" ∨ reason = "miss" ∨ reason = "fatal_error" then
    { st with turbo_exits := st.turbo_exits + 1 }
  else st

/-- `TurboManager.stop_for_symbol`: no-op when the symbol is not active;
otherwise deregister it, arm the cooldown, and update the counters. -/
def stop_for_symbol (cfg : TurboConfig) (st : TurboMgrState) (symbol : String)
    (now : ℚ) (reason : String) : TurboMgrState :=
  if symbol ∉ st.active then st
  else
    applyStopMetrics reason
      (applyCooldown cfg symbol now { st with active := st.active.erase symbol })

/-- An externally triggered turbo registry operation. -/
inductive TurboEvent : Type
  | start (symbol : String) (now : ℚ) (ws_data_ready : Bool)
  | stop (symbol : String) (now : ℚ) (reason : String)

/-- One registry operation applied to the state. -/
def turboStep (cfg : TurboConfig) (st : TurboMgrState) : TurboEvent →
    TurboMgrState
  | .start symbol now ws => (start_for_symbol cfg st symbol now ws).2
  | .stop symbol now reason => stop_for_symbol cfg st symbol now reason

/-- A sequence of registry operations applied in order. -/
def runTurboEvents (cfg : TurboConfig) (evs : List TurboEvent)
    (st : TurboMgrState) : TurboMgrState :=
  evs.foldl (turboStep cfg) st

theorem is_eligible_active (st : TurboMgrState) (symbol : String) (now : ℚ) :
    (is_eligible st symbol now).2.active = st.active ∧
      (is_eligible st symbol now).2.turbo_skips = st.turbo_skips := by
  unfold is_eligible
  cases cooldownLookup st.cooldown_until symbol with
  | none => exact ⟨rfl, rfl⟩
  | some deadline =>
      dsimp only
      split_ifs <;> exact ⟨rfl, rfl⟩

theorem applyStopMetrics_fields (reason : String) (st : TurboMgrState) :
    (applyStopMetrics reason st).active = st.active ∧
      (applyStopMetrics reason st).cooldown_until = st.cooldown_until := by
  unfold applyStopMetrics
  split_ifs <;> exact ⟨rfl, rfl⟩

theorem start_for_symbol_length (cfg : TurboConfig) (st : TurboMgrState)
    (symbol : String) (now : ℚ) (ws : Bool)
    (h : st.active.length ≤ cfg.max_parallel_pairs) :
    (start_for_symbol cfg st symbol now ws).2.active.length
      ≤ cfg.max_parallel_pairs := by
  have hact := (is_eligible_active st symbol now).1
  unfold start_for_symbol
  split_ifs with h1 h2 h3 h4 h5
  · exact h
  · exact h
  · simpa [hact] using h
  · simpa [hact] using h
  · simpa [hact] using h
  · rw [hact] at h4
    simpa [hact] using Nat.succ_le_of_lt (lt_of_not_le h4)

theorem stop_for_symbol_length (cfg : TurboConfig) (st : TurboMgrState)
    (symbol : String) (now : ℚ) (reason : String) :
    (stop_for_symbol cfg st symbol now reason).active.length
      ≤ st.active.length := by
  unfold stop_for_symbol
  split_ifs with h1
  · rw [(applyStopMetrics_fields reason
      (applyCooldown cfg symbol now
        { st with active := st.active.erase symbol })).1]
    unfold applyCooldown
    split_ifs <;>
      simpa using (List.erase_sublist symbol st.active).length_le
  · exact Nat.le_refl st.active.length

/-- C6: after any sequence of registry operations the number of active
turbo symbols stays at most `max_parallel_pairs`; and a start attempted by
an enabled, inactive, eligible symbol while the cap is reached does not
activate it, returns `False`, and increments `turbo_skips`. -/
theorem turbo_parallel_cap :
    (∀ (cfg : TurboConfig) (st : TurboMgrState) (evs : List TurboEvent),
      st.active.length ≤ cfg.max_parallel_pairs →
        (runTurboEvents cfg evs st).active.length ≤ cfg.max_parallel_pairs) ∧
      (∀ (cfg : TurboConfig) (st : TurboMgrState) (symbol : String) (now : ℚ)
          (ws : Bool),
        cfg.enabled = true → symbol ∉ st.active →
          (is_eligible st symbol now).1 = true →
          cfg.max_parallel_pairs ≤ st.active.length →
          (start_for_symbol cfg st symbol now ws).1 = false ∧
            (start_for_symbol cfg st symbol now ws).2.active = st.active ∧
            (start_for_symbol cfg st symbol now ws).2.turbo_skips
              = st.turbo_skips + 1) := by
  constructor
  · intro cfg st evs
    induction evs generalizing st with
    | nil => intro h; exact h
    | cons ev evs ih =>
        intro h
        have hstep : (turboStep cfg st ev).active.length
            ≤ cfg.max_parallel_pairs := by
          cases ev with
          | start symbol now ws => exact start_for_symbol_length cfg st _ _ _ h
          | stop symbol now reason =>
              exact le_trans (stop_for_symbol_length cfg st _ _ _) h
        exact ih (turboStep cfg st ev) hstep
  · intro cfg st symbol now ws hen hnact helig hcap
    have hact := (is_eligible_active st symbol now).1
    have hskips := (is_eligible_active st symbol now).2
    unfold start_for_symbol
    rw [if_neg (by simp [hen]), if_neg hnact,
      if_neg (by simp [helig]), if_pos (by rw [hact]; exact hcap)]
    exact ⟨rfl, hact, by
      show (is_eligible st symbol now).2.turbo_skips + 1 = st.turbo_skips + 1
      rw [hskips]⟩

/-- Witness for C6: with `max_parallel_pairs = 2`, starting `A`, `B`, `C`
from the empty registry leaves at most two active; and the start of `C`
against the registry `[A, B]` returns `False` and counts one skip. -/
theorem turbo_parallel_cap_witness :
    (runTurboEvents ⟨true, 2, 120⟩
        [.start "A" 0 true, .start "B" 0 true, .start "C" 0 true]
        ⟨[], [], 0, 0, 0⟩).active.length ≤ 2 ∧
      (start_for_symbol ⟨true, 2, 120⟩ ⟨["B", "A"], [], 0, 0, 0⟩
          "C" 0 true).1 = false ∧
      (start_for_symbol ⟨true, 2, 120⟩ ⟨["B", "A"], [], 0, 0, 0⟩
          "C" 0 true).2.active = ["B", "A"] ∧
      (start_for_symbol ⟨true, 2, 120⟩ ⟨["B", "A"], [], 0, 0, 0⟩
          "C" 0 true).2.turbo_skips = 0 + 1 :=
  ⟨turbo_parallel_cap.1 ⟨true, 2, 120⟩ ⟨[], [], 0, 0, 0⟩ _ (by decide),
    turbo_parallel_cap.2 ⟨true, 2, 120⟩ ⟨["B", "A"], [], 0, 0, 0⟩ "C" 0 true
      rfl (by decide) rfl (by decide)⟩

/-- C7: for an active symbol, immediately after `stop_for_symbol` the
symbol is ineligible and stays ineligible at every instant `t` with
`now ≤ t < now + cooldown_s`. -/
theorem turbo_cooldown_after_stop (cfg : TurboConfig) (st : TurboMgrState)
    (symbol : String) (now : ℚ) (reason : String) (t : ℚ)
    (hmem : symbol ∈ st.active) (h1 : now ≤ t) (h2 : t < now + cfg.cooldown_s) :
    (is_eligible (stop_for_symbol cfg st symbol now reason) symbol t).1
      = false := by
  have hcs : 0 < cfg.cooldown_s := by linarith
  have hcd : (stop_for_symbol cfg st symbol now reason).cooldown_until
      = (symbol, now + cfg.cooldown_s)
          :: eraseCooldown st.cooldown_until symbol := by
    unfold stop_for_symbol
    rw [if_neg (not_not_intro hmem),
      (applyStopMetrics_fields reason
        (applyCooldown cfg symbol now
          { st with active := st.active.erase symbol })).2]
    unfold applyCooldown
    rw [if_pos hcs]
  have hlook : cooldownLookup
      (stop_for_symbol cfg st symbol now reason).cooldown_until symbol
      = some (now + cfg.cooldown_s) := by
    rw [hcd]
    unfold cooldownLookup
    rw [List.find?_cons_of_pos _ (by simp)]
    rfl
  unfold is_eligible
  rw [hlook]
  dsimp only
  rw [if_pos h2]

/-- Witness for C7: stopping active `A` at `now = 0` with
`cooldown_s = 120` leaves `A` ineligible at `t = 50`. -/
theorem turbo_cooldown_after_stop_witness :
    ("A" ∈ (["A"] : List String)) ∧ ((0 : ℚ) ≤ 50) ∧ ((50 : ℚ) < 0 + 120) ∧
      (is_eligible
          (stop_for_symbol ⟨true, 2, 120⟩ ⟨["A"], [], 0, 0, 0⟩
            "A" 0 "funding_done")
          "A" 50).1 = false :=
  ⟨by decide, by norm_num, by norm_num,
    turbo_cooldown_after_stop ⟨true, 2, 120⟩ ⟨["A"], [], 0, 0, 0⟩
      "A" 0 "funding_done" 50 (by decide) (by norm_num) (by norm_num)⟩

/-! ## Ranking pipeline sorts (`watchlist_filters.py`, `scoring.py`)

Both sort sites use Python's `list.sort(key=..., reverse=True)`: a stable
sort, descending by the key, with no further tie-break.  Its output is
uniquely determined by "sorted descending by key" plus "equal keys keep
input order", which is exactly `List.insertionSort` under the relation
`key b ≤ key a` (`sortByKeyDesc_sorted_perm` below records adequacy). -/

/-- Python's `list.sort(key=key, reverse=True)`. -/
def sortByKeyDesc {α : Type} (key : α → ℚ) (l : List α) : List α :=
  l.insertionSort (fun a b => key b ≤ key a)

theorem sortByKeyDesc_sorted_perm {α : Type} (key : α → ℚ) (l : List α) :
    List.Perm (sortByKeyDesc key l) l ∧
      (sortByKeyDesc key l).Sorted (fun a b => key b ≤ key a) := by
  haveI : IsTotal α (fun a b => key b ≤ key a) :=
    ⟨fun a b => le_total (key b) (key a)⟩
  haveI : IsTrans α (fun a b => key b ≤ key a) :=
    ⟨fun _ _ _ hab hbc => le_trans hbc hab⟩
  exact ⟨List.perm_insertionSort _ l, List.sorted_insertionSort _ l⟩

theorem sortByKeyDesc_stable {α : Type} (key : α → ℚ) {l : List α} {a b : α}
    (hkey : key b ≤ key a) (hsub : List.Sublist [a, b] l) :
    List.Sublist [a, b] (sortByKeyDesc key l) :=
  List.pair_sublist_insertionSort hkey hsub

/-- A candidate tuple entering `ScoringEngine.rank_candidates`:
`(symbol, funding, volume, funding_time_remaining, spread_pct,
volatility_pct)`. -/
structure RankCandidate where
  symbol : String
  funding : ℚ
  volume : ℚ
  funding_time_remaining : String
  spread_pct : ℚ
  volatility_pct : ℚ
deriving DecidableEq, Repr

/-- The candidate with its computed score appended,
`candidate + (score,)`. -/
structure ScoredCandidate where
  symbol : String
  funding : ℚ
  volume : ℚ
  funding_time_remaining : String
  spread_pct : ℚ
  volatility_pct : ℚ
  score : ℚ
deriving DecidableEq, Repr

/-- The scoring step of `rank_candidates`. -/
def scoreCandidate (log : ℚ → ℚ) (w_f w_v w_s w_vol : ℚ)
    (c : RankCandidate) : ScoredCandidate :=
  ⟨c.symbol, c.funding, c.volume, c.funding_time_remaining, c.spread_pct,
    c.volatility_pct,
    compute_score log w_f w_v w_s w_vol c.funding c.volume c.spread_pct
      c.volatility_pct⟩

/-- `scored_candidates` of `rank_candidates`: every candidate with its
score appended, in input order. -/
def rank_candidates_scored (log : ℚ → ℚ) (w_f w_v w_s w_vol : ℚ)
    (candidates : List RankCandidate) : List ScoredCandidate :=
  candidates.map (scoreCandidate log w_f w_v w_s w_vol)

/-- The `scored_candidates.sort(key=lambda x: x[-1], reverse=True)` step of
`rank_candidates`. -/
def rank_candidates_sorted (log : ℚ → ℚ) (w_f w_v w_s w_vol : ℚ)
    (candidates : List RankCandidate) : List ScoredCandidate :=
  sortByKeyDesc (fun sc => sc.score)
    (rank_candidates_scored log w_f w_v w_s w_vol candidates)

/-- `ScoringEngine.rank_candidates`: score, sort by score descending,
truncate to `top_n`. -/
def rank_candidates (log : ℚ → ℚ) (w_f w_v w_s w_vol : ℚ) (top_n : ℕ)
    (candidates : List RankCandidate) : List ScoredCandidate :=
  (rank_candidates_sorted log w_f w_v w_s w_vol candidates).take top_n

/-- One funding-map value: `{funding, volume, next_funding_time}`. -/
structure FundingMapEntry where
  funding : ℚ
  volume : ℚ
  next_funding_time : Option NextFundingInput

/-- `symbol in funding_map and funding_map[symbol]`. -/
def fundingMapLookup (fm : List (String × FundingMapEntry)) (s : String) :
    Option FundingMapEntry :=
  (fm.find? (fun p => p.1 == s)).map (fun p => p.2)

/-- `bound is not None and pred(bound)`. -/
def boundActiveAnd {α : Type} (bound : Option α) (p : α → Bool) : Bool :=
  match bound with
  | some b => p b
  | none => false

/-- The effective minimum volume: `volume_min_millions * 10^6` has
precedence over `volume_min`. -/
def effectiveVolumeMin (volume_min volume_min_millions : Option ℚ) :
    Option ℚ :=
  match volume_min_millions with
  | some v => some (v * 1000000)
  | none => volume_min

/-- `calculate_funding_minutes_remaining` lifted over an absent
`next_funding_time` (Python passes `None`, which hits the falsy guard). -/
def fundingMinutesOpt (o : Option NextFundingInput) (now : ℚ) : Option ℚ :=
  match o with
  | some nft => calculate_funding_minutes_remaining nft now
  | none => none

/-- `calculate_funding_time_remaining` lifted over an absent
`next_funding_time`. -/
def fundingTimeStringOpt (o : Option NextFundingInput) (now : ℚ) : String :=
  match o with
  | some nft => calculate_funding_time_remaining nft now
  | none => "-"

/-- The per-symbol body of the `filter_by_funding` loop: `None` when the
symbol is rejected, the `(symbol, funding, volume, funding_time_remaining)`
tuple when kept. -/
def filter_by_funding_body (fm : List (String × FundingMapEntry))
    (funding_min funding_max volume_min volume_min_millions : Option ℚ)
    (funding_time_min_minutes funding_time_max_minutes : Option ℤ)
    (now : ℚ) (symbol : String) : Option FundingCandidate :=
  match fundingMapLookup fm symbol with
  | none => none
  | some data =>
      if boundActiveAnd funding_min (fun m => decide (|data.funding| < m)) then
        none
      else if boundActiveAnd funding_max
          (fun m => decide (m < |data.funding|)) then none
      else if boundActiveAnd (effectiveVolumeMin volume_min volume_min_millions)
          (fun m => decide (data.volume < m)) then none
      else if funding_time_min_minutes.isSome ∨ funding_time_max_minutes.isSome
          then
        match fundingMinutesOpt data.next_funding_time now with
        | none => none
        | some minutes =>
            if boundActiveAnd funding_time_min_minutes
                (fun m => decide (minutes < (m : ℚ))) then none
            else if boundActiveAnd funding_time_max_minutes
                (fun m => decide ((m : ℚ) < minutes)) then none
            else
              some ⟨symbol, data.funding, data.volume,
                fundingTimeStringOpt data.next_funding_time now⟩
      else
        some ⟨symbol, data.funding, data.volume,
          fundingTimeStringOpt data.next_funding_time now⟩

/-- The `filtered_symbols` list of `filter_by_funding` before sorting, in
symbol order. -/
def filter_by_funding_filtered (all_symbols : List String)
    (fm : List (String × FundingMapEntry))
    (funding_min funding_max volume_min volume_min_millions : Option ℚ)
    (funding_time_min_minutes funding_time_max_minutes : Option ℤ)
    (now : ℚ) : List FundingCandidate :=
  all_symbols.filterMap
    (filter_by_funding_body fm funding_min funding_max volume_min
      volume_min_millions funding_time_min_minutes funding_time_max_minutes now)

/-- The `filtered_symbols.sort(key=lambda x: abs(x[1]), reverse=True)` step
of `filter_by_funding`. -/
def filter_by_funding_sorted (all_symbols : List String)
    (fm : List (String × FundingMapEntry))
    (funding_min funding_max volume_min volume_min_millions : Option ℚ)
    (funding_time_min_minutes funding_time_max_minutes : Option ℤ)
    (now : ℚ) : List FundingCandidate :=
  sortByKeyDesc (fun c => |c.funding|)
    (filter_by_funding_filtered all_symbols fm funding_min funding_max
      volume_min volume_min_millions funding_time_min_minutes
      funding_time_max_minutes now)

/-- `WatchlistFilters.filter_by_funding`: filter, sort by `|funding|`
descending, truncate to `limite`. -/
def filter_by_funding (all_symbols : List String)
    (fm : List (String × FundingMapEntry))
    (funding_min funding_max volume_min volume_min_millions : Option ℚ)
    (limite : Option ℕ)
    (funding_time_min_minutes funding_time_max_minutes : Option ℤ)
    (now : ℚ) : List FundingCandidate :=
  match limite with
  | some n =>
      (filter_by_funding_sorted all_symbols fm funding_min funding_max
        volume_min volume_min_millions funding_time_min_minutes
        funding_time_max_minutes now).take n
  | none =>
      filter_by_funding_sorted all_symbols fm funding_min funding_max
        volume_min volume_min_millions funding_time_min_minutes
        funding_time_max_minutes now

/-- The tie-break order C8 claims for the final ranking sort: score
descending, then `|fundingRate|` descending, then symbol lexicographic. -/
def claimedRankingOrder (a b : ScoredCandidate) : Prop :=
  b.score < a.score ∨
    (a.score = b.score ∧
      (|b.funding| < |a.funding| ∨
        (|a.funding| = |b.funding| ∧ a.symbol < b.symbol)))

/-- Counterexample to C8 as stated: two candidates identical except for
their symbols (`B` listed before `A`) tie on score and on `|fundingRate|`,
yet `rank_candidates` keeps `B` before `A` — stable input order, not the
claimed symbol-lexicographic tie-break. -/
theorem ranking_tiebreak_counterexample :
    rank_candidates indicatorLog 1 1 1 1 2
        [⟨"B", 1/100, 0, "-", 0, 0⟩, ⟨"A", 1/100, 0, "-", 0, 0⟩]
      = [⟨"B", 1/100, 0, "-", 0, 0, 1/100⟩, ⟨"A", 1/100, 0, "-", 0, 0, 1/100⟩] ∧
      ¬ (rank_candidates indicatorLog 1 1 1 1 2
          [⟨"B", 1/100, 0, "-", 0, 0⟩, ⟨"A", 1/100, 0, "-", 0, 0⟩]).Pairwise
        claimedRankingOrder := by
  have hscore : compute_score indicatorLog 1 1 1 1 (1/100) 0 0 0 = 1/100 := by
    norm_num [compute_score, indicatorLog]
  have hscored : rank_candidates_scored indicatorLog 1 1 1 1
      [⟨"B", 1/100, 0, "-", 0, 0⟩, ⟨"A", 1/100, 0, "-", 0, 0⟩]
      = [⟨"B", 1/100, 0, "-", 0, 0, 1/100⟩,
          ⟨"A", 1/100, 0, "-", 0, 0, 1/100⟩] := by
    simp only [rank_candidates_scored, List.map_cons, List.map_nil,
      scoreCandidate, hscore]
  have hsorted : rank_candidates_sorted indicatorLog 1 1 1 1
      [⟨"B", 1/100, 0, "-", 0, 0⟩, ⟨"A", 1/100, 0, "-", 0, 0⟩]
      = [⟨"B", 1/100, 0, "-", 0, 0, 1/100⟩,
          ⟨"A", 1/100, 0, "-", 0, 0, 1/100⟩] := by
    unfold rank_candidates_sorted sortByKeyDesc
    rw [hscored]
    simp only [List.insertionSort, List.orderedInsert, le_refl, if_true]
  have hout : rank_candidates indicatorLog 1 1 1 1 2
      [⟨"B", 1/100, 0, "-", 0, 0⟩, ⟨"A", 1/100, 0, "-", 0, 0⟩]
      = [⟨"B", 1/100, 0, "-", 0, 0, 1/100⟩,
          ⟨"A", 1/100, 0, "-", 0, 0, 1/100⟩] := by
    unfold rank_candidates
    rw [hsorted]
    rfl
  refine ⟨hout, ?_⟩
  rw [hout]
  intro hpair
  have hrel := List.rel_of_pairwise_cons hpair (List.mem_singleton.mpr rfl)
  rcases hrel with hlt | ⟨_, habs | ⟨_, hsym⟩⟩
  · exact absurd hlt (by norm_num)
  · exact absurd habs (by norm_num)
  · exact absurd hsym (by rw [String.lt_iff_toList_lt]; decide)

/-- C8 (amended): in both ranking-pipeline sorts, candidates that compare
equal on the stage's primary key (composite score in the final ranking,
`|fundingRate|` in the pre-score sort) keep their input order — Python's
stable sort applies no further tie-break. -/
theorem ranking_sorts_stable :
    (∀ (log : ℚ → ℚ) (w_f w_v w_s w_vol : ℚ) (cands : List RankCandidate)
        (a b : ScoredCandidate),
      b.score ≤ a.score →
        List.Sublist [a, b]
          (rank_candidates_scored log w_f w_v w_s w_vol cands) →
        List.Sublist [a, b]
          (rank_candidates_sorted log w_f w_v w_s w_vol cands)) ∧
      (∀ (all_symbols : List String) (fm : List (String × FundingMapEntry))
          (funding_min funding_max volume_min volume_min_millions : Option ℚ)
          (ftmin ftmax : Option ℤ) (now : ℚ) (a b : FundingCandidate),
        |b.funding| ≤ |a.funding| →
          List.Sublist [a, b] (filter_by_funding_filtered all_symbols fm
            funding_min funding_max volume_min volume_min_millions ftmin
            ftmax now) →
          List.Sublist [a, b] (filter_by_funding_sorted all_symbols fm
            funding_min funding_max volume_min volume_min_millions ftmin
            ftmax now)) := by
  constructor
  · intro log w_f w_v w_s w_vol cands a b hkey hsub
    unfold rank_candidates_sorted
    exact sortByKeyDesc_stable (fun sc => sc.score) hkey hsub
  · intro all_symbols fm fmin fmax vmin vmm ftmin ftmax now a b hkey hsub
    unfold filter_by_funding_sorted
    exact sortByKeyDesc_stable _ hkey hsub

/-- Witness for C8 (amended) on the concrete tied pair from the
counterexample input: `B` stays before `A` in both the scored list and the
sorted list. -/
theorem ranking_sorts_stable_witness :
    ((1 : ℚ)/100 ≤ 1/100) ∧
      List.Sublist
        [(⟨"B", 1/100, 0, "-", 0, 0, 1/100⟩ : ScoredCandidate),
          ⟨"A", 1/100, 0, "-", 0, 0, 1/100⟩]
        (rank_candidates_scored indicatorLog 1 1 1 1
          [⟨"B", 1/100, 0, "-", 0, 0⟩, ⟨"A", 1/100, 0, "-", 0, 0⟩]) ∧
      List.Sublist
        [(⟨"B", 1/100, 0, "-", 0, 0, 1/100⟩ : ScoredCandidate),
          ⟨"A", 1/100, 0, "-", 0, 0, 1/100⟩]
        (rank_candidates_sorted indicatorLog 1 1 1 1
          [⟨"B", 1/100, 0, "-", 0, 0⟩, ⟨"A", 1/100, 0, "-", 0, 0⟩]) := by
  have hscore : compute_score indicatorLog 1 1 1 1 (1/100) 0 0 0 = 1/100 := by
    norm_num [compute_score, indicatorLog]
  have hscored : rank_candidates_scored indicatorLog 1 1 1 1
      [⟨"B", 1/100, 0, "-", 0, 0⟩, ⟨"A", 1/100, 0, "-", 0, 0⟩]
      = [⟨"B", 1/100, 0, "-", 0, 0, 1/100⟩,
          ⟨"A", 1/100, 0, "-", 0, 0, 1/100⟩] := by
    simp only [rank_candidates_scored, scoreCandidate, List.map_cons,
      List.map_nil, hscore]
  have hsub : List.Sublist
      [(⟨"B", 1/100, 0, "-", 0, 0, 1/100⟩ : ScoredCandidate),
        ⟨"A", 1/100, 0, "-", 0, 0, 1/100⟩]
      (rank_candidates_scored indicatorLog 1 1 1 1
        [⟨"B", 1/100, 0, "-", 0, 0⟩, ⟨"A", 1/100, 0, "-", 0, 0⟩]) := by
    rw [hscored]
  exact ⟨le_refl _, hsub,
    ranking_sorts_stable.1 indicatorLog 1 1 1 1
      [⟨"B", 1/100, 0, "-", 0, 0⟩, ⟨"A", 1/100, 0, "-", 0, 0⟩]
      ⟨"B", 1/100, 0, "-", 0, 0, 1/100⟩ ⟨"A", 1/100, 0, "-", 0, 0, 1/100⟩
      (le_refl _) hsub⟩

end BybitBot
